import Mathlib

/-!
Verification development for the Financial Advisor CORS relay
(`python/agents/financial-advisor/cors-proxy.py`).

The Python source is shallowly embedded: text is modelled as `List Char`
(Python `str` operations such as `split`, `strip`, `startswith`, slicing are
by code point, which matches `List Char` exactly), JSON values as an inductive
`Json`, and the two backend HTTP calls of each handler as explicit inputs
(an `Except Exc` value is the outcome of the call: a parsed response or a
raised exception).  The Python `json` module is embedded by an executable
recursive-descent parser; fractional numbers and the two-byte unicode escape
form are not needed by any claim and make the parser fail, which is noted at
the relevant spot.
-/

/-- JSON values, as produced by the Python `json` module.  Numbers are
modelled as integers only (no event payload in the claims carries floats).
Objects are association lists assumed to have pairwise distinct keys, which
is what `json.loads` produces. -/
inductive Json where
  | null
  | bool (b : Bool)
  | num (n : Int)
  | str (s : String)
  | arr (xs : List Json)
  | obj (fields : List (String × Json))

/-- First-match lookup in an object field list (keys are distinct). -/
def jLookup (fs : List (String × Json)) (k : String) : Option Json :=
  match fs with
  | [] => none
  | (k2, v) :: rest => if k2 = k then some v else jLookup rest k

/-- Python truthiness of a JSON value (`if x:`): `None`, `False`, `0`, empty
string, empty list and empty dict are falsy, everything else truthy. -/
def Json.truthy : Json → Bool
  | .null => false
  | .bool b => b
  | .num n => n != 0
  | .str s => !s.data.isEmpty
  | .arr xs => !xs.isEmpty
  | .obj fs => !fs.isEmpty

/-- Exceptions raised while handling a request.  `timeoutExc` is
`httpx.TimeoutException` (payload is `str(e)`); `httpExc` is a
`fastapi.HTTPException` raised by the handler itself; `attrError`,
`typeError` and `keyError` are the built-in Python exceptions raised by
`.get` on a non-dict, by `+=`/iteration on ill-typed values and by `[...]`
on a missing key (their `str(e)` texts are abstracted to fixed strings,
no claim depends on them); `other` is any other exception with message
`str(e)`. -/
inductive Exc where
  | timeoutExc (msg : String)
  | httpExc (status : Nat) (detail : String)
  | attrError
  | typeError
  | keyError (k : String)
  | other (msg : String)
deriving DecidableEq

/-- Model of `str(e)` for an exception.  Starlette defines
`HTTPException.__str__` as the status code, a colon and the detail, which is
what the generic `except Exception` handler interpolates when a handler-raised
`HTTPException` is caught by it. -/
def excStr : Exc → String
  | .timeoutExc m => m
  | .httpExc st d => toString st ++ ": " ++ d
  | .attrError => "AttributeError"
  | .typeError => "TypeError"
  | .keyError k => "\x27" ++ k ++ "\x27"
  | .other m => m

/-- Model of `d.get(k)` for a JSON value: returns `None` for a missing key, raises
`AttributeError` when the receiver is not a dict. -/
def pyGet (j : Json) (k : String) : Except Exc (Option Json) :=
  match j with
  | .obj fs => .ok (jLookup fs k)
  | _ => .error .attrError

/-- Model of `d[k]` for a JSON value: raises `KeyError` for a missing key and
`TypeError` when the receiver is not a dict. -/
def pyIndex (j : Json) (k : String) : Except Exc Json :=
  match j with
  | .obj fs =>
    match jLookup fs k with
    | some v => .ok v
    | none => .error (.keyError k)
  | _ => .error .typeError

/-- Python whitespace, the characters stripped by `str.strip()`
(the ASCII subset; no payload in the claims carries other whitespace). -/
def isPySpace (c : Char) : Bool :=
  c = ' ' || c = '\t' || c = '\n' || c = '\r' || c = '\x0B' || c = '\x0C'

/-- Drop matching characters from the end of a list. -/
def dropEndWhile (p : Char → Bool) (l : List Char) : List Char :=
  (l.reverse.dropWhile p).reverse

/-- Python `str.strip()`. -/
def pyStrip (l : List Char) : List Char :=
  dropEndWhile isPySpace (l.dropWhile isPySpace)

/-- Python `str.split(chr)` specialised to one newline separator:
`"".split(c)` is `[""]`, and separators at the ends produce empty pieces. -/
def pySplitNl : List Char → List (List Char)
  | [] => [[]]
  | c :: rest =>
    match pySplitNl rest with
    | [] => [[]]
    | l :: ls => if c = '\n' then [] :: l :: ls else (c :: l) :: ls

/-- Python `"\n".join(pieces)`. -/
def pyJoinNl : List (List Char) → List Char
  | [] => []
  | [l] => l
  | l :: ls => l ++ '\n' :: pyJoinNl ls

/-- Concatenation of a list of character lists. -/
def catLists : List (List Char) → List Char
  | [] => []
  | l :: ls => l ++ catLists ls

/-- Model of `s.replace(pat, rep, 1)`: replace the first occurrence of `pat`
(always the two-character pattern here, never empty). -/
def rfAux (pat rep : List Char) : List Char → List Char
  | [] => []
  | c :: rest =>
    if pat.isPrefixOf (c :: rest) then rep ++ (c :: rest).drop pat.length
    else c :: rfAux pat rep rest

/-- Whether a character list contains two adjacent asterisks, i.e. an
occurrence of the pattern replaced by the emphasis rule. -/
def hasSS : List Char → Bool
  | c1 :: c2 :: rest => (c1 == '*' && c2 == '*') || hasSS (c2 :: rest)
  | _ => false

/-! ### Embedding of the Python `json` module (`json.loads`) -/

/-- Whitespace skipped between JSON tokens (the exact set of `json.loads`). -/
def skipWs : List Char → List Char
  | c :: rest =>
    if c = ' ' || c = '\t' || c = '\n' || c = '\r' then skipWs rest else c :: rest
  | [] => []

/-- Decoding of a one-character string escape.  The four-hex-digit unicode
escape is not needed by any claim and is rejected. -/
def escChar (e : Char) : Option Char :=
  if e = '"' || e = '\\' || e = '/' then some e
  else if e = 'n' then some '\n'
  else if e = 't' then some '\t'
  else if e = 'r' then some '\r'
  else if e = 'b' then some '\x08'
  else if e = 'f' then some '\x0C'
  else none

/-- Parse the body of a JSON string after the opening quote, returning the
content and the remaining input after the closing quote. -/
def parseStringBody : List Char → Option (List Char × List Char)
  | [] => none
  | '"' :: rest => some ([], rest)
  | '\\' :: e :: rest =>
    match escChar e with
    | some c => (parseStringBody rest).map (fun p => (c :: p.1, p.2))
    | none => none
  | c :: rest => (parseStringBody rest).map (fun p => (c :: p.1, p.2))

def isDigitCh (c : Char) : Bool := '0' ≤ c && c ≤ '9'

def digitsToNat (ds : List Char) : Nat :=
  ds.foldl (fun a c => a * 10 + (c.toNat - 48)) 0

/-- Parse a JSON natural number literal (JSON forbids leading zeros;
fractional and exponent forms are not modelled and are rejected). -/
def parseNat (l : List Char) : Option (Nat × List Char) :=
  let ds := l.takeWhile isDigitCh
  let r := l.dropWhile isDigitCh
  if ds.isEmpty then none
  else if ds.length > 1 && ds.headD ' ' == '0' then none
  else
    match r with
    | '.' :: _ => none
    | 'e' :: _ => none
    | 'E' :: _ => none
    | _ => some (digitsToNat ds, r)

mutual

/-- Fuelled recursive-descent parser for one JSON value; returns the value
and the remaining input. -/
def parseValue : Nat → List Char → Option (Json × List Char)
  | 0, _ => none
  | Nat.succ f, l =>
    match skipWs l with
    | 'n' :: 'u' :: 'l' :: 'l' :: rest => some (.null, rest)
    | 't' :: 'r' :: 'u' :: 'e' :: rest => some (.bool true, rest)
    | 'f' :: 'a' :: 'l' :: 's' :: 'e' :: rest => some (.bool false, rest)
    | '"' :: rest => (parseStringBody rest).map (fun p => (.str ⟨p.1⟩, p.2))
    | '[' :: rest =>
      (match skipWs rest with
       | ']' :: r2 => some (.arr [], r2)
       | _ => parseItems f rest [])
    | '{' :: rest =>
      (match skipWs rest with
       | '}' :: r2 => some (.obj [], r2)
       | _ => parseMembers f rest [])
    | '-' :: rest =>
      (match parseNat rest with
       | some (n, r2) => some (.num (-(n : Int)), r2)
       | none => none)
    | l2 =>
      (match parseNat l2 with
       | some (n, r2) => some (.num (n : Int), r2)
       | none => none)

/-- Parse the items of a non-empty JSON array after the opening bracket. -/
def parseItems : Nat → List Char → List Json → Option (Json × List Char)
  | 0, _, _ => none
  | Nat.succ f, l, acc =>
    match parseValue f l with
    | none => none
    | some (v, r) =>
      match skipWs r with
      | ',' :: r2 => parseItems f r2 (acc ++ [v])
      | ']' :: r2 => some (.arr (acc ++ [v]), r2)
      | _ => none

/-- Parse the members of a non-empty JSON object after the opening brace. -/
def parseMembers : Nat → List Char → List (String × Json) → Option (Json × List Char)
  | 0, _, _ => none
  | Nat.succ f, l, acc =>
    match skipWs l with
    | '"' :: r =>
      (match parseStringBody r with
       | none => none
       | some (k, r2) =>
         match skipWs r2 with
         | ':' :: r3 =>
           (match parseValue f r3 with
            | none => none
            | some (v, r4) =>
              match skipWs r4 with
              | ',' :: r5 => parseMembers f r5 (acc ++ [(⟨k⟩, v)])
              | '}' :: r5 => some (.obj (acc ++ [(⟨k⟩, v)]), r5)
              | _ => none)
         | _ => none)
    | _ => none

end

/-- Model of `json.loads` on a character list: parse one value and require only
whitespace to remain; `none` is a raised `json.JSONDecodeError`. -/
def jsonLoads (l : List Char) : Option Json :=
  match parseValue (l.length + 2) l with
  | some (j, rest) => if skipWs rest = [] then some j else none
  | none => none

/-! ### Embedding of the relay operations (`cors-proxy.py`) -/

/-- One yielded SSE frame of `stream_agent_response`.  Each Python `yield`
of the generator emits the serialisation of exactly one of these payloads:
`token` is `data: {"token": v}`, `error` is `data: {"error": msg}` and
`done` is `data: {"done": true}` (the token payload keeps the raw JSON
value because `json.dumps` serialises any value found in the `text` field). -/
inductive Frame where
  | token (v : Json)
  | error (msg : String)
  | done

/-- Number of backend session-creation calls and run calls issued while
handling one request. -/
structure Calls where
  sessions : Nat
  runs : Nat
deriving DecidableEq

/-- Outcome of the non-streaming handler: the JSON reply body or a raised
`HTTPException` with its status code and detail. -/
inductive ProxyResult where
  | reply (s : String)
  | httpError (status : Nat) (detail : String)
deriving DecidableEq

/-- Input of the non-streaming handler: the outcome of the session-creation
call and of the run call it would issue, each either a raised exception or a
status code with the parsed JSON response body. -/
structure RunEnv where
  sessionCall : Except Exc (Nat × Json)
  runCall : Except Exc (Nat × Json)

/-- Input of the streaming handler: the session-creation outcome, the
stream-open outcome (status code and the text chunks delivered by
`aiter_text`), and an optional exception raised by the chunk iterator after
the listed chunks have been delivered. -/
structure StreamEnv where
  sessionCall : Except Exc (Nat × Json)
  runCall : Except Exc (Nat × List String)
  midExc : Option Exc

/-- The condition and indexing on one event,
`event.get("content") and event.get("content", {}).get("parts")` followed by
`event["content"]["parts"]`: either the condition is falsy (skip), or it
yields a list of parts to iterate, or an exception is raised.  Iterating a
truthy non-list (a non-empty dict yields its string keys, a non-empty string
its characters, on which `.get` raises `AttributeError`; numbers and booleans
are not iterable, `TypeError`). -/
inductive PartsCase where
  | skip
  | iter (ps : List Json)
  | exc (e : Exc)

def eventPartsOf (ev : Json) : PartsCase :=
  match pyGet ev "content" with
  | .error e => .exc e
  | .ok copt =>
    let content := copt.getD Json.null
    if content.truthy then
      match pyGet content "parts" with
      | .error e => .exc e
      | .ok popt =>
        let parts := popt.getD Json.null
        if parts.truthy then
          match parts with
          | .arr ps => .iter ps
          | .obj _ => .exc .attrError
          | .str _ => .exc .attrError
          | _ => .exc .typeError
        else .skip
    else .skip

/-- The inner loop of `get_agent_response`:
`for part in parts: if part.get("text"): reply_text += part["text"]`.
A truthy non-string text raises `TypeError` on `+=`. -/
def partsText (acc : List Char) : List Json → Except Exc (List Char)
  | [] => .ok acc
  | p :: ps =>
    match pyGet p "text" with
    | .error e => .error e
    | .ok topt =>
      let t := topt.getD Json.null
      if t.truthy then
        match t with
        | .str s => partsText (acc ++ s.data) ps
        | _ => .error .typeError
      else partsText acc ps

/-- The outer loop of `get_agent_response` over the event array. -/
def eventsText (acc : List Char) : List Json → Except Exc (List Char)
  | [] => .ok acc
  | ev :: evs =>
    match eventPartsOf ev with
    | .exc e => .error e
    | .skip => eventsText acc evs
    | .iter ps =>
      match partsText acc ps with
      | .error e => .error e
      | .ok acc2 => eventsText acc2 evs

/-- The inner loop of `stream_agent_response`: one `{token: text}` frame per
truthy text, yielded incrementally, so frames emitted before a raised
exception are kept. -/
def partsTokens : List Json → List Frame × Option Exc
  | [] => ([], none)
  | p :: ps =>
    match pyGet p "text" with
    | .error e => ([], some e)
    | .ok topt =>
      let t := topt.getD Json.null
      if t.truthy then
        match partsTokens ps with
        | (fr, e) => (Frame.token t :: fr, e)
      else partsTokens ps

/-- Token frames produced from one parsed SSE event object. -/
def processEvent (ev : Json) : List Frame × Option Exc :=
  match eventPartsOf ev with
  | .exc e => ([], some e)
  | .skip => ([], none)
  | .iter ps => partsTokens ps

/-- Frames produced from one line of a chunk: only lines starting with the
literal prefix `data: ` are considered; a JSON decode failure of the
remainder is caught (`except json.JSONDecodeError: continue`). -/
def lineFrames (line : List Char) : List Frame × Option Exc :=
  if "data: ".data.isPrefixOf line then
    match jsonLoads (line.drop 6) with
    | none => ([], none)
    | some ev => processEvent ev
  else ([], none)

/-- Sequential processing: frames accumulate until the first raised
exception, which aborts the rest. -/
def seqFrames {α : Type} (f : α → List Frame × Option Exc) : List α → List Frame × Option Exc
  | [] => ([], none)
  | x :: xs =>
    match f x with
    | (fr, some e) => (fr, some e)
    | (fr, none) =>
      match seqFrames f xs with
      | (fr2, e2) => (fr ++ fr2, e2)

/-- Frames produced from one text chunk: blank chunks are skipped
(`if chunk.strip():`), otherwise every newline-separated line is scanned. -/
def chunkFrames (chunk : String) : List Frame × Option Exc :=
  if pyStrip chunk.data = [] then ([], none)
  else seqFrames lineFrames (pySplitNl chunk.data)

/-- How the `try` block of the streaming generator ends: it falls through
normally, it executes the early `return` after the session-failure error
frame, or an exception escapes to the `except` clause. -/
inductive TryOutcome where
  | normal
  | earlyReturn
  | exc (e : Exc)

/-- The `try` block of `stream_agent_response`: session creation, the
status check with its early `return`, `session_data["id"]`, the stream-open
status check and the chunk loop. -/
def streamTry (env : StreamEnv) : List Frame × TryOutcome :=
  match env.sessionCall with
  | .error e => ([], .exc e)
  | .ok (st, sbody) =>
    if st ≠ 200 then ([Frame.error "Failed to create session"], .earlyReturn)
    else
      match pyIndex sbody "id" with
      | .error e => ([], .exc e)
      | .ok _ =>
        match env.runCall with
        | .error e => ([], .exc e)
        | .ok (rst, chunks) =>
          if rst = 200 then
            match seqFrames chunkFrames chunks with
            | (fr, some e) => (fr, .exc e)
            | (fr, none) =>
              match env.midExc with
              | some e => (fr, .exc e)
              | none => (fr, .normal)
          else ([Frame.error ("Backend error: " ++ toString rst)], .normal)

/-- The full streaming generator.  The final `data: {"done": true}` yield
stands after the `try`/`except` block, so it runs after normal completion
and after the in-band `{error}` frame of the `except` clause, but the early
`return` inside the `try` (session-creation failure) terminates the
generator before reaching it. -/
def stream_agent_response (message : String) (env : StreamEnv) : List Frame :=
  match streamTry env with
  | (fr, .normal) => fr ++ [Frame.done]
  | (fr, .earlyReturn) => fr
  | (fr, .exc e) => fr ++ [Frame.error ("Streaming error: " ++ excStr e), Frame.done]

/-! ### The text reformatter (`format_text`) -/

def isHashOrSpace (c : Char) : Bool := c = '#' || c = ' '

/-- The body of the line loop of `format_text`: strip, rewrite bullet
markers, decorate headers, keep blank and ordinary lines. -/
def formatLine (l0 : List Char) : List Char :=
  let l := pyStrip l0
  if "- ".data.isPrefixOf l || "• ".data.isPrefixOf l then
    "• ".data ++ l.drop 2
  else if ['#'].isPrefixOf l then
    let level := l.length - (l.dropWhile (fun c => c = '#')).length
    let htext := pyStrip (l.dropWhile isHashOrSpace)
    let sep := List.replicate (min (level * 2) 8) '='
    '\n' :: (sep ++ ' ' :: (htext ++ ' ' :: (sep ++ ['\n'])))
  else l

/-- The emphasis phase:
`text.replace("**", "<strong>", 1).replace("**", "</strong>", 1)`. -/
def boldPhase (l : List Char) : List Char :=
  rfAux "**".data "</strong>".data (rfAux "**".data "<strong>".data l)

def formatChars (l : List Char) : List Char :=
  pyJoinNl ((pySplitNl (boldPhase l)).map formatLine)

/-- The function `format_text` from the source: emphasis phase, then the per-line pass,
rejoined with newlines. -/
def format_text (s : String) : String := ⟨formatChars s.data⟩

/-! ### The two handlers -/

/-- The canned reply returned when the event array yields no text. -/
def fallbackReply : String :=
  "I received your message but couldn\x27t generate a response. Please try again."

/-- The `try` block of `get_agent_response` together with the number of
backend calls issued: session creation, `session_data["id"]`, the run call,
and the event-array scan.  A run response body that is not a list is
iterated the way Python iterates it (an empty dict or empty string yields no
events and falls to the fallback branch; a non-empty dict or string puts a
string in `event`, whose `.get` raises `AttributeError`; other values raise
`TypeError`). -/
def getAgentTry (env : RunEnv) : Except Exc String × Calls :=
  match env.sessionCall with
  | .error e => (.error e, ⟨1, 0⟩)
  | .ok (st, sbody) =>
    if st ≠ 200 then (.error (.httpExc 500 "Failed to create session"), ⟨1, 0⟩)
    else
      match pyIndex sbody "id" with
      | .error e => (.error e, ⟨1, 0⟩)
      | .ok _ =>
        match env.runCall with
        | .error e => (.error e, ⟨1, 1⟩)
        | .ok (rst, rbody) =>
          if rst = 200 then
            match
              (match rbody with
               | .arr events => eventsText [] events
               | .obj [] => .ok []
               | .str s => if s.data = [] then .ok [] else .error .attrError
               | .obj (_ :: _) => .error .attrError
               | _ => .error .typeError : Except Exc (List Char)) with
            | .error e => (.error e, ⟨1, 1⟩)
            | .ok reply =>
              if reply ≠ [] then (.ok (format_text ⟨pyStrip reply⟩), ⟨1, 1⟩)
              else (.ok fallbackReply, ⟨1, 1⟩)
          else (.error (.httpExc 500 ("Backend error: " ++ toString rst)), ⟨1, 1⟩)

/-- The non-streaming handler: the `try` body, then
`except httpx.TimeoutException` (status 504) and `except Exception`
(status 500, and `str(e)` interpolated into the detail — this clause also
catches the `HTTPException`s raised inside the `try`, re-wrapping their
text). -/
def get_agent_response (message : String) (env : RunEnv) : ProxyResult × Calls :=
  match getAgentTry env with
  | (.ok r, c) => (.reply r, c)
  | (.error (.timeoutExc _), c) =>
    (.httpError 504 "Request timeout - the AI is processing your request", c)
  | (.error e, c) => (.httpError 500 ("Proxy error: " ++ excStr e), c)

/-- The validated request body of `POST /api/agent`
(`message: str`, `streaming: bool = False`). -/
structure ChatMessage where
  message : String
  streaming : Bool

/-- Pydantic validation of the request body: `message` must be present and a
string, `streaming` defaults to `False` (coercions beyond exact types are
not modelled; no claim depends on them).  `none` is the 422 validation
response produced by FastAPI before the handler body runs. -/
def parseChatMessage (body : Json) : Option ChatMessage :=
  match body with
  | .obj fs =>
    (match jLookup fs "message" with
     | some (.str m) =>
       (match jLookup fs "streaming" with
        | some (.bool b) => some ⟨m, b⟩
        | none => some ⟨m, false⟩
        | some _ => none)
     | _ => none)
  | _ => none

/-- Result of one `POST /api/agent` request: the 422 validation rejection,
a streaming response with its frames, or the JSON outcome of the
non-streaming handler. -/
inductive HandlerResult where
  | validationError
  | streaming (frames : List Frame)
  | json (r : ProxyResult)

/-- HTTP status code of a handler result. -/
def handlerStatus : HandlerResult → Nat
  | .validationError => 422
  | .streaming _ => 200
  | .json (.reply _) => 200
  | .json (.httpError st _) => st

/-- Backend calls issued by the streaming generator: the session call always
happens first; the run stream is opened only when the session call returned
status 200 and `session_data["id"]` succeeded. -/
def streamCalls (env : StreamEnv) : Calls :=
  match env.sessionCall with
  | .error _ => ⟨1, 0⟩
  | .ok (st, sbody) =>
    if st ≠ 200 then ⟨1, 0⟩
    else
      match pyIndex sbody "id" with
      | .error _ => ⟨1, 0⟩
      | .ok _ => ⟨1, 1⟩

/-- The `POST /api/agent` endpoint: body validation, then dispatch on the
`streaming` flag.  There is no emptiness check on the message. -/
def proxy_agent_request (body : Json) (sEnv : StreamEnv) (nEnv : RunEnv) :
    HandlerResult × Calls :=
  match parseChatMessage body with
  | none => (.validationError, ⟨0, 0⟩)
  | some cm =>
    if cm.streaming then (.streaming (stream_agent_response cm.message sEnv), streamCalls sEnv)
    else
      match get_agent_response cm.message nEnv with
      | (r, c) => (.json r, c)

/-! ### Spec-side reading of the event payloads

These definitions follow the words of the specification
("concatenate every `content.parts[].text` field across every event, in
array order" and "emit a downstream frame `{token: text}` for the text of each
part, in order"), to be compared with the loops embedded from the source. -/

/-- The text string of one part, per the spec reading (a part without a
string `text` field contributes nothing). -/
def specPartChars : Json → List Char
  | .obj fs =>
    (match jLookup fs "text" with
     | some (.str s) => s.data
     | _ => [])
  | _ => []

/-- The concatenated text of one event, per the spec reading. -/
def specEventChars : Json → List Char
  | .obj fs =>
    (match jLookup fs "content" with
     | some (.obj cfs) =>
       (match jLookup cfs "parts" with
        | some (.arr ps) => catLists (ps.map specPartChars)
        | _ => [])
     | _ => [])
  | _ => []

/-- The concatenation of every `content.parts[].text` field across every
event, in array order, per the spec reading. -/
def specConcat (events : List Json) : List Char :=
  catLists (events.map specEventChars)

/-- The list of token texts of one part, per the spec reading. -/
def specPartTok : Json → List String
  | .obj fs =>
    (match jLookup fs "text" with
     | some (.str s) => [s]
     | _ => [])
  | _ => []

/-- The list of token texts of one event, per the spec reading. -/
def specEventToks : Json → List String
  | .obj fs =>
    (match jLookup fs "content" with
     | some (.obj cfs) =>
       (match jLookup cfs "parts" with
        | some (.arr ps) => (ps.map specPartTok).flatten
        | _ => [])
     | _ => [])
  | _ => []

/-! ### Well-formedness of event payloads

The loops in the source raise exceptions on ill-typed payloads (a truthy
non-dict `content`, a truthy non-list `parts`, a non-dict part, a truthy
non-string `text`).  The predicates below carve out the payloads on which
the source loops run to completion; on them the code agrees with the
spec-side reading. -/

/-- A part on which the concatenation loop does not raise: a dict whose
`text` is absent, a string, or falsy. -/
def partWF : Json → Bool
  | .obj fs =>
    (match jLookup fs "text" with
     | none => true
     | some (.str _) => true
     | some v => !v.truthy)
  | _ => false

/-- A part on which the token loop agrees with the spec-side token list
frame for frame: its `text`, when present, must be absent, falsy non-string,
or a non-empty string (the code skips an empty-string text, which would
still be a token per the spec reading). -/
def partWFtok : Json → Bool
  | .obj fs =>
    (match jLookup fs "text" with
     | none => true
     | some (.str s) => !s.data.isEmpty
     | some v => !v.truthy)
  | _ => false

/-- An event whose parts all satisfy `pw` and whose `content`/`parts` shape
does not make the source loops raise. -/
def eventWFwith (pw : Json → Bool) : Json → Bool
  | .obj fs =>
    (match jLookup fs "content" with
     | none => true
     | some c =>
       !c.truthy ||
       (match c with
        | .obj cfs =>
          (match jLookup cfs "parts" with
           | none => true
           | some ps =>
             !ps.truthy ||
             (match ps with
              | .arr l => l.all pw
              | _ => false))
        | _ => false))
  | _ => false

def eventWF : Json → Bool := eventWFwith partWF

def eventWFtok : Json → Bool := eventWFwith partWFtok

/-! ### Lemmas about adjacent-asterisk occurrences and first-replacement -/

theorem hasSS_cons_false {c : Char} {t : List Char} (h : hasSS (c :: t) = false) :
    hasSS t = false := by
  cases t with
  | nil => rfl
  | cons e t' => simp [hasSS] at h; exact h.2

theorem hasSS_cons_nonstar {c : Char} (h : c ≠ '*') (t : List Char) :
    hasSS (c :: t) = hasSS t := by
  cases t with
  | nil => simp [hasSS]
  | cons e t' =>
    have hc : (c == '*') = false := beq_eq_false_iff_ne.mpr h
    simp [hasSS, hc]

theorem hasSS_append_cons (x : List Char) (c : Char) (y : List Char) :
    hasSS (x ++ c :: y) = (hasSS (x ++ [c]) || hasSS (c :: y)) := by
  induction x with
  | nil => simp [hasSS]
  | cons d x' ih =>
    cases x' with
    | nil => simp [hasSS, Bool.or_assoc]
    | cons e x'' =>
      simp only [List.cons_append] at ih ⊢
      simp [hasSS, ih, Bool.or_assoc]

theorem hasSS_append_left_false :
    ∀ (x y : List Char), hasSS (x ++ y) = false → hasSS x = false
  | [], _, _ => rfl
  | [_], _, _ => rfl
  | d :: e :: x'', y, h => by
    simp only [List.cons_append] at h
    simp only [hasSS, Bool.or_eq_false_iff] at h ⊢
    exact ⟨h.1, hasSS_append_left_false (e :: x'') y h.2⟩
termination_by x _ _ => x.length

theorem hasSS_append_right_false :
    ∀ (x y : List Char), hasSS (x ++ y) = false → hasSS y = false
  | [], _, h => h
  | _ :: x', y, h => hasSS_append_right_false x' y (hasSS_cons_false h)

theorem hasSS_append_nonstar {c : Char} (h : c ≠ '*') :
    ∀ (x : List Char), hasSS (x ++ [c]) = hasSS x
  | [] => by
    have hc : (c == '*') = false := beq_eq_false_iff_ne.mpr h
    simp [hasSS]
  | [d] => by
    have hc : (c == '*') = false := beq_eq_false_iff_ne.mpr h
    simp [hasSS, hc]
  | d :: e :: x'' => by
    have ih := hasSS_append_nonstar h (e :: x'')
    simp only [List.cons_append] at ih ⊢
    simp only [hasSS]
    rw [ih]
termination_by x => x.length

theorem rfAux_no_match (rep : List Char) :
    ∀ (l : List Char), hasSS l = false → rfAux ['*', '*'] rep l = l
  | [], _ => rfl
  | c :: rest, h => by
    have hp : (['*', '*'].isPrefixOf (c :: rest)) = false := by
      cases rest with
      | nil => simp [List.isPrefixOf]
      | cons e r' =>
        simp only [hasSS, Bool.or_eq_false_iff] at h
        simp only [List.isPrefixOf, Bool.and_eq_false_iff]
        rcases Bool.and_eq_false_iff.mp h.1 with h1 | h1
        · left
          rw [BEq.comm]
          exact h1
        · right
          left
          rw [BEq.comm]
          exact h1
    rw [rfAux, if_neg (by simp [hp]), rfAux_no_match rep rest (hasSS_cons_false h)]

theorem rfAux_match (rep : List Char) :
    ∀ (a tail : List Char), hasSS (a ++ ['*']) = false →
      rfAux ['*', '*'] rep (a ++ '*' :: '*' :: tail) = a ++ rep ++ tail
  | [], tail, _ => by simp [rfAux, List.isPrefixOf]
  | c :: a', tail, h => by
    have h' : hasSS (a' ++ ['*']) = false := by
      simp only [List.cons_append] at h
      exact hasSS_cons_false h
    have hp : (['*', '*'].isPrefixOf (c :: (a' ++ '*' :: '*' :: tail))) = false := by
      cases a' with
      | nil =>
        simp only [List.cons_append, List.nil_append, hasSS, Bool.or_eq_false_iff] at h
        have := h.1
        simp only [List.isPrefixOf, Bool.and_eq_false_iff]
        left
        rw [BEq.comm]
        simpa using this
      | cons e a'' =>
        simp only [List.cons_append, hasSS, Bool.or_eq_false_iff] at h
        simp only [List.isPrefixOf, Bool.and_eq_false_iff]
        rcases Bool.and_eq_false_iff.mp h.1 with h1 | h1
        · left
          rw [BEq.comm]
          exact h1
        · right
          left
          rw [BEq.comm]
          exact h1
    simp only [List.cons_append]
    rw [rfAux, if_neg (by simp [hp]), rfAux_match rep a' tail h']

theorem hasSS_strong (x : List Char) : hasSS ("<strong>".data ++ x) = hasSS x := by
  show hasSS ('<' :: 's' :: 't' :: 'r' :: 'o' :: 'n' :: 'g' :: '>' :: x) = hasSS x
  rw [hasSS_cons_nonstar (by decide), hasSS_cons_nonstar (by decide),
    hasSS_cons_nonstar (by decide), hasSS_cons_nonstar (by decide),
    hasSS_cons_nonstar (by decide), hasSS_cons_nonstar (by decide),
    hasSS_cons_nonstar (by decide), hasSS_cons_nonstar (by decide)]

/-- C5: the emphasis phase of the reformatter converts only the first
`**...**` pair into `<strong>`/`</strong>`; every later `**` occurrence
(here: the whole suffix `c`, which may contain arbitrarily many `**`) is
left unchanged, and the concrete example of the specification holds. -/
theorem C5_bold_first_pair_only (a b c : List Char)
    (ha : hasSS (a ++ ['*']) = false) (hb : hasSS (b ++ ['*']) = false) :
    boldPhase (a ++ '*' :: '*' :: (b ++ '*' :: '*' :: c))
      = a ++ "<strong>".data ++ b ++ "</strong>".data ++ c ∧
    format_text "**bold** and **bold2**" = "<strong>bold</strong> and **bold2**" := by
  constructor
  · unfold boldPhase
    have hpat : "**".data = ['*', '*'] := rfl
    rw [hpat, rfAux_match "<strong>".data a (b ++ '*' :: '*' :: c) ha]
    have hassoc : a ++ "<strong>".data ++ (b ++ '*' :: '*' :: c)
        = (a ++ "<strong>".data ++ b) ++ '*' :: '*' :: c := by simp
    rw [hassoc]
    have hpre : hasSS ((a ++ "<strong>".data ++ b) ++ ['*']) = false := by
      have e1 : (a ++ "<strong>".data ++ b) ++ ['*']
          = a ++ '<' :: ("strong>".data ++ (b ++ ['*'])) := by simp
      rw [e1, hasSS_append_cons]
      have e2 : ('<' :: ("strong>".data ++ (b ++ ['*'])))
          = "<strong>".data ++ (b ++ ['*']) := rfl
      rw [e2, hasSS_strong, hb, hasSS_append_nonstar (by decide) a,
        hasSS_append_left_false a ['*'] ha]
      rfl
    rw [rfAux_match "</strong>".data _ c hpre]
  · rfl

theorem C5_witness :
    boldPhase ("x".data ++ '*' :: '*' :: ("y".data ++ '*' :: '*' :: "z**w".data))
      = "x".data ++ "<strong>".data ++ "y".data ++ "</strong>".data ++ "z**w".data ∧
    format_text "**bold** and **bold2**" = "<strong>bold</strong> and **bold2**" :=
  C5_bold_first_pair_only "x".data "y".data "z**w".data (by decide) (by decide)

/-! ### The source loops agree with the spec-side reading on well-formed events -/

theorem partWF_obj {p : Json} (h : partWF p = true) : ∃ fs, p = .obj fs := by
  cases p <;> simp_all [partWF]

theorem partWFtok_obj {p : Json} (h : partWFtok p = true) : ∃ fs, p = .obj fs := by
  cases p <;> simp_all [partWFtok]

/-- On an event accepted by `eventWFwith pw`, the condition of the source
loops either skips the event (and the spec-side readings are empty) or
iterates exactly the parts list of the spec-side reading. -/
theorem eventWF_cases {pw : Json → Bool} {ev : Json} (h : eventWFwith pw ev = true) :
    (eventPartsOf ev = .skip ∧ specEventChars ev = [] ∧ specEventToks ev = []) ∨
    (∃ l, eventPartsOf ev = .iter l ∧ l.all pw = true ∧
      specEventChars ev = catLists (l.map specPartChars) ∧
      specEventToks ev = (l.map specPartTok).flatten) := by
  cases ev with
  | obj fs =>
    cases hcontent : jLookup fs "content" with
    | none =>
      left
      simp [eventPartsOf, pyGet, hcontent, Json.truthy, specEventChars, specEventToks]
    | some c =>
      simp only [eventWFwith, hcontent] at h
      cases c with
      | null =>
        left
        simp [eventPartsOf, pyGet, hcontent, Json.truthy, specEventChars, specEventToks]
      | bool b =>
        simp only [Json.truthy, Bool.not_eq_eq_eq_not, Bool.not_true, Bool.or_false] at h
        left
        simp_all [eventPartsOf, pyGet, hcontent, Json.truthy, specEventChars, specEventToks]
      | num n =>
        simp only [Json.truthy, Bool.or_false] at h
        left
        simp_all [eventPartsOf, pyGet, hcontent, Json.truthy, specEventChars, specEventToks]
      | str s =>
        simp only [Json.truthy, Bool.or_false] at h
        left
        simp_all [eventPartsOf, pyGet, hcontent, Json.truthy, specEventChars, specEventToks]
      | arr xs =>
        simp only [Json.truthy, Bool.or_false] at h
        left
        simp_all [eventPartsOf, pyGet, hcontent, Json.truthy, specEventChars, specEventToks]
      | obj cfs =>
        cases cfs with
        | nil =>
          left
          simp [eventPartsOf, pyGet, hcontent, Json.truthy, specEventChars, specEventToks,
            jLookup]
        | cons f0 cfs' =>
          simp only [Json.truthy, List.isEmpty_cons, Bool.not_false, Bool.true_or,
            Bool.not_not, Bool.false_or] at h
          cases hparts : jLookup (f0 :: cfs') "parts" with
          | none =>
            left
            simp [eventPartsOf, pyGet, hcontent, hparts, Json.truthy, specEventChars,
              specEventToks]
          | some ps =>
            simp only [hparts] at h
            cases ps with
            | null =>
              left
              simp [eventPartsOf, pyGet, hcontent, hparts, Json.truthy, specEventChars,
                specEventToks]
            | bool b =>
              simp only [Json.truthy, Bool.or_false] at h
              left
              simp_all [eventPartsOf, pyGet, hcontent, hparts, Json.truthy, specEventChars,
                specEventToks]
            | num n =>
              simp only [Json.truthy, Bool.or_false] at h
              left
              simp_all [eventPartsOf, pyGet, hcontent, hparts, Json.truthy, specEventChars,
                specEventToks]
            | str s =>
              simp only [Json.truthy, Bool.or_false] at h
              left
              simp_all [eventPartsOf, pyGet, hcontent, hparts, Json.truthy, specEventChars,
                specEventToks]
            | obj pfs =>
              simp only [Json.truthy, Bool.or_false] at h
              left
              simp_all [eventPartsOf, pyGet, hcontent, hparts, Json.truthy, specEventChars,
                specEventToks, jLookup]
            | arr l =>
              cases l with
              | nil =>
                left
                simp [eventPartsOf, pyGet, hcontent, hparts, Json.truthy, specEventChars,
                  specEventToks, catLists]
              | cons p0 l' =>
                right
                refine ⟨p0 :: l', ?_, ?_, ?_, ?_⟩
                · simp [eventPartsOf, pyGet, hcontent, hparts, Json.truthy]
                · simpa using h
                · simp [specEventChars, hcontent, hparts]
                · simp [specEventToks, hcontent, hparts]
  | null => simp [eventWFwith] at h
  | bool b => simp [eventWFwith] at h
  | num n => simp [eventWFwith] at h
  | str s => simp [eventWFwith] at h
  | arr xs => simp [eventWFwith] at h

/-- The part loop of the non-streaming handler computes the spec-side
concatenation on well-formed parts. -/
theorem partsText_spec :
    ∀ (ps : List Json) (acc : List Char), ps.all partWF = true →
      partsText acc ps = .ok (acc ++ catLists (ps.map specPartChars))
  | [], acc, _ => by simp [partsText, catLists]
  | p :: ps, acc, h => by
    simp only [List.all_cons, Bool.and_eq_true] at h
    obtain ⟨hp, hps⟩ := h
    obtain ⟨fs, rfl⟩ := partWF_obj hp
    cases htext : jLookup fs "text" with
    | none =>
      simp [partsText, pyGet, htext, Json.truthy, specPartChars, catLists,
        partsText_spec ps acc hps]
    | some v =>
      simp only [partWF, htext] at hp
      cases v with
      | str s =>
        obtain ⟨sd⟩ := s
        cases sd with
        | nil =>
          simp [partsText, pyGet, htext, Json.truthy, specPartChars, catLists,
            partsText_spec ps acc hps]
        | cons c0 sd' =>
          simp [partsText, pyGet, htext, Json.truthy, specPartChars, catLists,
            partsText_spec ps (acc ++ (c0 :: sd')) hps]
      | null =>
        simp [partsText, pyGet, htext, Json.truthy, specPartChars, catLists,
          partsText_spec ps acc hps]
      | bool b =>
        simp only [Json.truthy, Bool.not_eq_eq_eq_not, Bool.not_true] at hp
        simp [partsText, pyGet, htext, Json.truthy, hp, specPartChars, catLists,
          partsText_spec ps acc hps]
      | num n =>
        simp only [Json.truthy] at hp
        simp_all [partsText, pyGet, htext, Json.truthy, specPartChars, catLists,
          partsText_spec ps acc hps]
      | arr xs =>
        simp only [Json.truthy] at hp
        simp_all [partsText, pyGet, htext, Json.truthy, specPartChars, catLists,
          partsText_spec ps acc hps]
      | obj ofs =>
        simp only [Json.truthy] at hp
        simp_all [partsText, pyGet, htext, Json.truthy, specPartChars, catLists,
          partsText_spec ps acc hps]

/-- The event loop of the non-streaming handler computes the spec-side
concatenation of every `content.parts[].text` on well-formed events. -/
theorem eventsText_spec :
    ∀ (events : List Json) (acc : List Char), events.all eventWF = true →
      eventsText acc events = .ok (acc ++ specConcat events)
  | [], acc, _ => by simp [eventsText, specConcat, catLists]
  | ev :: evs, acc, h => by
    simp only [List.all_cons, Bool.and_eq_true] at h
    obtain ⟨hev, hevs⟩ := h
    rcases eventWF_cases hev with ⟨hskip, hspec, _⟩ | ⟨l, hiter, hall, hspec, _⟩
    · simp [eventsText, hskip, specConcat, catLists, hspec,
        eventsText_spec evs acc hevs]
    · simp [eventsText, hiter, partsText_spec l acc hall, specConcat, catLists, hspec,
        eventsText_spec evs (acc ++ catLists (l.map specPartChars)) hevs]

/-- The part loop of the streaming generator emits one token frame per
spec-side text on parts whose texts are non-empty strings. -/
theorem partsTokens_spec :
    ∀ (ps : List Json), ps.all partWFtok = true →
      partsTokens ps
        = (((ps.map specPartTok).flatten).map (fun s => Frame.token (Json.str s)), none)
  | [], _ => by simp [partsTokens]
  | p :: ps, h => by
    simp only [List.all_cons, Bool.and_eq_true] at h
    obtain ⟨hp, hps⟩ := h
    obtain ⟨fs, rfl⟩ := partWFtok_obj hp
    cases htext : jLookup fs "text" with
    | none =>
      simp [partsTokens, pyGet, htext, Json.truthy, specPartTok, partsTokens_spec ps hps]
    | some v =>
      simp only [partWFtok, htext] at hp
      cases v with
      | str s =>
        obtain ⟨sd⟩ := s
        cases sd with
        | nil => simp at hp
        | cons c0 sd' =>
          simp [partsTokens, pyGet, htext, Json.truthy, specPartTok,
            partsTokens_spec ps hps]
      | null =>
        simp [partsTokens, pyGet, htext, Json.truthy, specPartTok, partsTokens_spec ps hps]
      | bool b =>
        simp only [Json.truthy, Bool.not_eq_eq_eq_not, Bool.not_true] at hp
        simp [partsTokens, pyGet, htext, Json.truthy, hp, specPartTok,
          partsTokens_spec ps hps]
      | num n =>
        simp only [Json.truthy] at hp
        simp_all [partsTokens, pyGet, htext, Json.truthy, specPartTok,
          partsTokens_spec ps hps]
      | arr xs =>
        simp only [Json.truthy] at hp
        simp_all [partsTokens, pyGet, htext, Json.truthy, specPartTok,
          partsTokens_spec ps hps]
      | obj ofs =>
        simp only [Json.truthy] at hp
        simp_all [partsTokens, pyGet, htext, Json.truthy, specPartTok,
          partsTokens_spec ps hps]

/-- One parsed SSE event produces exactly the spec-side token frames, in
order, and raises nothing, on well-formed events. -/
theorem processEvent_spec {ev : Json} (h : eventWFtok ev = true) :
    processEvent ev = ((specEventToks ev).map (fun s => Frame.token (Json.str s)), none) := by
  rcases eventWF_cases h with ⟨hskip, _, htoks⟩ | ⟨l, hiter, hall, _, htoks⟩
  · simp [processEvent, hskip, htoks]
  · simp [processEvent, hiter, htoks, partsTokens_spec l hall]

/-! ### Claim theorems: the non-streaming handler -/

/-- C3 counterexample: with session success and a run status of 200 carrying
an event array that yields no text, the reply is the canned fallback, not
the reformatted trimmed concatenation (which would be the empty string) as
the claim states for every event array. -/
theorem C3_counterexample :
    (get_agent_response "hi"
        ⟨.ok (200, Json.obj [("id", Json.str "s")]), .ok (200, Json.arr [])⟩).1
      ≠ ProxyResult.reply (format_text ⟨pyStrip (specConcat [])⟩) := by
  decide

/-- C3 (amended): for a non-streaming request with a successful session
call, a run status of 200 and a well-formed event array whose collected
text is non-empty, the reply is exactly the reformatter applied to the
trimmed concatenation of every string `content.parts[].text` across all
events in array order, with one session call and one run call issued. -/
theorem C3_reply_is_reformatted_concat (msg : String) (sbody sid : Json)
    (events : List Json) (hid : pyIndex sbody "id" = .ok sid)
    (hWF : events.all eventWF = true) (hne : specConcat events ≠ []) :
    get_agent_response msg ⟨.ok (200, sbody), .ok (200, Json.arr events)⟩
      = (.reply (format_text ⟨pyStrip (specConcat events)⟩), ⟨1, 1⟩) := by
  have hb : getAgentTry ⟨.ok (200, sbody), .ok (200, Json.arr events)⟩
      = (.ok (format_text ⟨pyStrip (specConcat events)⟩), ⟨1, 1⟩) := by
    unfold getAgentTry
    simp [hid, eventsText_spec events [] hWF, hne]
  simp [get_agent_response, hb]

theorem C3_witness :
    get_agent_response "q" ⟨.ok (200, Json.obj [("id", Json.str "s")]),
        .ok (200, Json.arr [Json.obj [("content", Json.obj [("parts",
          Json.arr [Json.obj [("text", Json.str "Hello advisor")]])])]])⟩
      = (.reply (format_text ⟨pyStrip (specConcat [Json.obj [("content",
          Json.obj [("parts", Json.arr [Json.obj [("text",
          Json.str "Hello advisor")]])])]])⟩), ⟨1, 1⟩) :=
  C3_reply_is_reformatted_concat "q" (Json.obj [("id", Json.str "s")]) (Json.str "s")
    [Json.obj [("content", Json.obj [("parts",
      Json.arr [Json.obj [("text", Json.str "Hello advisor")]])])]]
    rfl rfl (by decide)

/-- C6: with session success, run status 200 and a well-formed event array
yielding no text at all, the reply is the canned fallback message, which is
not the empty string. -/
theorem C6_fallback_on_textless_events (msg : String) (sbody sid : Json)
    (events : List Json) (hid : pyIndex sbody "id" = .ok sid)
    (hWF : events.all eventWF = true) (hempty : specConcat events = []) :
    (get_agent_response msg ⟨.ok (200, sbody), .ok (200, Json.arr events)⟩).1
      = .reply fallbackReply ∧ fallbackReply ≠ "" := by
  constructor
  · have hb : getAgentTry ⟨.ok (200, sbody), .ok (200, Json.arr events)⟩
        = (.ok fallbackReply, ⟨1, 1⟩) := by
      unfold getAgentTry
      simp [hid, eventsText_spec events [] hWF, hempty]
    simp [get_agent_response, hb]
  · decide

theorem C6_witness :
    (get_agent_response "q" ⟨.ok (200, Json.obj [("id", Json.str "s")]),
        .ok (200, Json.arr [Json.obj [("author", Json.str "agent")],
          Json.obj [("content", Json.obj [("parts",
            Json.arr [Json.obj [("functionCall", Json.obj [("name", Json.str "f")])]])])]])⟩).1
      = .reply fallbackReply ∧ fallbackReply ≠ "" :=
  C6_fallback_on_textless_events "q" (Json.obj [("id", Json.str "s")]) (Json.str "s")
    [Json.obj [("author", Json.str "agent")],
     Json.obj [("content", Json.obj [("parts",
       Json.arr [Json.obj [("functionCall", Json.obj [("name", Json.str "f")])]])])]]
    rfl rfl (by decide)

/-- C7: when the session-creation call returns any non-2xx status, the
non-streaming handler answers with the 500 server error whose detail names
the session-creation failure (re-wrapped by the generic exception handler),
having issued exactly one session call and no run call. -/
theorem C7_session_failure (msg : String) (env : RunEnv) (st : Nat) (sbody : Json)
    (h : env.sessionCall = .ok (st, sbody)) (h2 : st < 200 ∨ 300 ≤ st) :
    get_agent_response msg env
      = (.httpError 500 "Proxy error: 500: Failed to create session", ⟨1, 0⟩) := by
  have hne : st ≠ 200 := by rcases h2 with h2 | h2 <;> omega
  have hb : getAgentTry env
      = (.error (.httpExc 500 "Failed to create session"), ⟨1, 0⟩) := by
    unfold getAgentTry
    rw [h]
    simp [hne]
  unfold get_agent_response
  rw [hb]
  decide

theorem C7_witness :
    get_agent_response "hi" ⟨.ok (500, Json.obj []), .ok (200, Json.arr [])⟩
      = (.httpError 500 "Proxy error: 500: Failed to create session", ⟨1, 0⟩) :=
  C7_session_failure "hi" ⟨.ok (500, Json.obj []), .ok (200, Json.arr [])⟩ 500
    (Json.obj []) rfl (Or.inr (by omega))

/-- C9 counterexample: in the streaming path a backend timeout is not
distinguishable from any other exception — the generator output on a
session-call timeout is identical to its output on a generic exception with
the same message, and the emitted frame is the generic streaming-error
frame, which does not mention that the request is still processing. -/
theorem C9_counterexample :
    stream_agent_response "hi" ⟨.error (.timeoutExc "timed out"), .ok (200, []), none⟩
        = stream_agent_response "hi" ⟨.error (.other "timed out"), .ok (200, []), none⟩ ∧
    stream_agent_response "hi" ⟨.error (.timeoutExc "timed out"), .ok (200, []), none⟩
        = [Frame.error "Streaming error: timed out", Frame.done] :=
  ⟨rfl, rfl⟩

/-- C9 (amended): in the non-streaming path a backend timeout — on the
session call or on the run call — produces the distinct 504 response whose
detail mentions that the request is still processing, and no non-timeout
exception can produce that response; the streaming path has no such
distinction (see the counterexample). -/
theorem C9_timeout_distinct_nonstreaming (msg m : String) (env1 env2 : RunEnv)
    (sbody sid : Json)
    (h1 : env1.sessionCall = .error (.timeoutExc m))
    (h2 : env2.sessionCall = .ok (200, sbody))
    (hid : pyIndex sbody "id" = .ok sid)
    (h3 : env2.runCall = .error (.timeoutExc m)) :
    (get_agent_response msg env1).1
        = .httpError 504 "Request timeout - the AI is processing your request" ∧
    (get_agent_response msg env2).1
        = .httpError 504 "Request timeout - the AI is processing your request" ∧
    (∀ e : Exc, (∀ m2, e ≠ .timeoutExc m2) →
      (get_agent_response msg ⟨.error e, env1.runCall⟩).1
        ≠ .httpError 504 "Request timeout - the AI is processing your request") := by
  refine ⟨?_, ?_, ?_⟩
  · have hb : getAgentTry env1 = (.error (.timeoutExc m), ⟨1, 0⟩) := by
      unfold getAgentTry
      rw [h1]
    unfold get_agent_response
    rw [hb]
  · have hb : getAgentTry env2 = (.error (.timeoutExc m), ⟨1, 1⟩) := by
      unfold getAgentTry
      rw [h2]
      simp [hid, h3]
    unfold get_agent_response
    rw [hb]
  · intro e he
    have hb : getAgentTry ⟨.error e, env1.runCall⟩ = (.error e, ⟨1, 0⟩) := rfl
    unfold get_agent_response
    rw [hb]
    cases e with
    | timeoutExc m2 => exact absurd rfl (he m2)
    | httpExc st d => simp
    | attrError => simp
    | typeError => simp
    | keyError k => simp
    | other m2 => simp

theorem C9_witness :
    (get_agent_response "q" ⟨.error (.timeoutExc "t"), .ok (200, Json.arr [])⟩).1
        = .httpError 504 "Request timeout - the AI is processing your request" ∧
    (get_agent_response "q" ⟨.ok (200, Json.obj [("id", Json.str "s")]),
        .error (.timeoutExc "t")⟩).1
        = .httpError 504 "Request timeout - the AI is processing your request" ∧
    (∀ e : Exc, (∀ m2, e ≠ .timeoutExc m2) →
      (get_agent_response "q" ⟨.error e, Except.ok (200, Json.arr [])⟩).1
        ≠ .httpError 504 "Request timeout - the AI is processing your request") :=
  C9_timeout_distinct_nonstreaming "q" "t"
    ⟨.error (.timeoutExc "t"), .ok (200, Json.arr [])⟩
    ⟨.ok (200, Json.obj [("id", Json.str "s")]), .error (.timeoutExc "t")⟩
    (Json.obj [("id", Json.str "s")]) (Json.str "s") rfl rfl rfl rfl

/-- C10: a backend response counts as success only when its status is
exactly 200.  Any other status — including other 2xx codes — on the session
call or on the run call takes the failure branch, in both the non-streaming
and the streaming path. -/
theorem C10_only_200_is_success (msg : String) (st stR : Nat) (sid : Json)
    (hs : st ≠ 200) (hr : stR ≠ 200) :
    (get_agent_response msg
        ⟨.ok (st, Json.obj [("id", sid)]), .ok (200, Json.arr [])⟩).1
      = .httpError 500 "Proxy error: 500: Failed to create session" ∧
    (get_agent_response msg
        ⟨.ok (200, Json.obj [("id", sid)]), .ok (stR, Json.arr [])⟩).1
      = .httpError 500
          ("Proxy error: " ++ excStr (.httpExc 500 ("Backend error: " ++ toString stR))) ∧
    stream_agent_response msg ⟨.ok (st, Json.obj [("id", sid)]), .ok (200, []), none⟩
      = [Frame.error "Failed to create session"] ∧
    stream_agent_response msg ⟨.ok (200, Json.obj [("id", sid)]), .ok (stR, []), none⟩
      = [Frame.error ("Backend error: " ++ toString stR), Frame.done] := by
  refine ⟨?_, ?_, ?_, ?_⟩
  · have hb : getAgentTry ⟨.ok (st, Json.obj [("id", sid)]), .ok (200, Json.arr [])⟩
        = (.error (.httpExc 500 "Failed to create session"), ⟨1, 0⟩) := by
      unfold getAgentTry
      simp [hs]
    unfold get_agent_response
    rw [hb]
    decide
  · have hb : getAgentTry ⟨.ok (200, Json.obj [("id", sid)]), .ok (stR, Json.arr [])⟩
        = (.error (.httpExc 500 ("Backend error: " ++ toString stR)), ⟨1, 1⟩) := by
      unfold getAgentTry
      simp [pyIndex, jLookup, hr]
    unfold get_agent_response
    rw [hb]
  · unfold stream_agent_response streamTry
    simp [hs]
  · unfold stream_agent_response streamTry
    simp [pyIndex, jLookup, hr, seqFrames]

theorem C10_witness :
    (get_agent_response "hi"
        ⟨.ok (201, Json.obj [("id", Json.str "s")]), .ok (200, Json.arr [])⟩).1
      = .httpError 500 "Proxy error: 500: Failed to create session" ∧
    (get_agent_response "hi"
        ⟨.ok (200, Json.obj [("id", Json.str "s")]), .ok (204, Json.arr [])⟩).1
      = .httpError 500
          ("Proxy error: " ++ excStr (.httpExc 500 ("Backend error: " ++ toString 204))) ∧
    stream_agent_response "hi"
        ⟨.ok (201, Json.obj [("id", Json.str "s")]), .ok (200, []), none⟩
      = [Frame.error "Failed to create session"] ∧
    stream_agent_response "hi"
        ⟨.ok (200, Json.obj [("id", Json.str "s")]), .ok (204, []), none⟩
      = [Frame.error ("Backend error: " ++ toString 204), Frame.done] :=
  C10_only_200_is_success "hi" 201 204 (Json.str "s") (by decide) (by decide)

/-! ### Claim theorems: the streaming terminator -/

/-- Inversion of the early `return`: the `try` block of the streaming
generator ends in the early return exactly when the session-creation call
returned a non-200 status, and then the yielded frames are the single
session-failure error frame. -/
theorem streamTry_earlyReturn {env : StreamEnv} {fr : List Frame}
    (h : streamTry env = (fr, .earlyReturn)) :
    ∃ st sbody, env.sessionCall = .ok (st, sbody) ∧ st ≠ 200 ∧
      fr = [Frame.error "Failed to create session"] := by
  unfold streamTry at h
  cases hsc : env.sessionCall with
  | error e =>
    rw [hsc] at h
    simp at h
  | ok p =>
    rcases p with ⟨st, sbody⟩
    rw [hsc] at h
    by_cases h200 : st = 200
    · subst h200
      exfalso
      simp only [ne_eq, not_true_eq_false, if_false] at h
      cases hpy : pyIndex sbody "id" with
      | error e =>
        rw [hpy] at h
        simp at h
      | ok v =>
        rw [hpy] at h
        cases hrc : env.runCall with
        | error e =>
          rw [hrc] at h
          simp at h
        | ok q =>
          rcases q with ⟨rst, chunks⟩
          rw [hrc] at h
          by_cases hrst : rst = 200
          · subst hrst
            simp only [if_pos rfl] at h
            rcases hseq : seqFrames chunkFrames chunks with ⟨fr2, oe⟩
            rw [hseq] at h
            cases oe with
            | some e => simp at h
            | none =>
              cases hme : env.midExc with
              | some e =>
                rw [hme] at h
                simp at h
              | none =>
                rw [hme] at h
                simp at h
          · simp [hrst] at h
    · refine ⟨st, sbody, rfl, h200, ?_⟩
      simp [h200] at h
      exact h.symm

/-- C1 counterexample: on a session-creation failure the stream consists of
the single error frame; its last frame is not the done frame — the early
`return` exits the generator before the final yield. -/
theorem C1_counterexample :
    stream_agent_response "hi" ⟨.ok (500, Json.obj []), .ok (200, []), none⟩
        = [Frame.error "Failed to create session"] ∧
    (stream_agent_response "hi" ⟨.ok (500, Json.obj []), .ok (200, []), none⟩).getLast?
        ≠ some Frame.done :=
  ⟨rfl, fun h => Frame.noConfusion (Option.some.inj h)⟩

/-- C1 (amended): the streaming response ends with the done frame in the
success, backend-run-error and raised-exception cases; in the remaining
case — session creation returning a non-200 status — the stream is the
single session-failure error frame and no done frame is emitted. -/
theorem C1_done_terminator (msg : String) (env : StreamEnv) :
    (stream_agent_response msg env).getLast? = some Frame.done ∨
    (∃ st sbody, env.sessionCall = .ok (st, sbody) ∧ st ≠ 200 ∧
      stream_agent_response msg env = [Frame.error "Failed to create session"]) := by
  rcases hTry : streamTry env with ⟨fr, oc⟩
  cases oc with
  | normal =>
    left
    unfold stream_agent_response
    rw [hTry]
    exact List.getLast?_concat fr
  | exc e =>
    left
    unfold stream_agent_response
    rw [hTry]
    show (fr ++ [Frame.error ("Streaming error: " ++ excStr e), Frame.done]).getLast?
        = some Frame.done
    rw [show fr ++ [Frame.error ("Streaming error: " ++ excStr e), Frame.done]
        = (fr ++ [Frame.error ("Streaming error: " ++ excStr e)]) ++ [Frame.done] by simp]
    exact List.getLast?_concat _
  | earlyReturn =>
    obtain ⟨st, sbody, hsc, hne, hfr⟩ := streamTry_earlyReturn hTry
    right
    refine ⟨st, sbody, hsc, hne, ?_⟩
    unfold stream_agent_response
    rw [hTry, hfr]

theorem isPrefixOf_append_self : ∀ (a b : List Char), (a.isPrefixOf (a ++ b)) = true
  | [], _ => by simp [List.isPrefixOf]
  | c :: a2, b => by
    simp [List.isPrefixOf, isPrefixOf_append_self a2 b]

/-! ### Claim theorems: streaming token pass-through -/

/-- C4 counterexample: an SSE frame whose single part carries the
empty-string text field produces no token frame at all (the code tests
truthiness, and the empty string is falsy), although the claim prescribes
one `{token: text}` frame per text part: the parsed event has one text
part, and zero frames are emitted. -/
theorem C4_counterexample :
    jsonLoads "\x7b\"content\": \x7b\"parts\": [\x7b\"text\": \"\"\x7d]\x7d\x7d".data
      = some (Json.obj [("content", Json.obj [("parts",
          Json.arr [Json.obj [("text", Json.str "")]])])]) ∧
    (lineFrames ("data: ".data
        ++ "\x7b\"content\": \x7b\"parts\": [\x7b\"text\": \"\"\x7d]\x7d\x7d".data)).1.length
      = 0 ∧
    (specEventToks (Json.obj [("content", Json.obj [("parts",
        Json.arr [Json.obj [("text", Json.str "")]])])])).length = 1 :=
  ⟨rfl, rfl, rfl⟩

/-- C4 (amended): every received line starting with `data: ` whose remainder
parses as JSON and whose text fields are non-empty strings makes the relay
emit exactly one `{token: text}` frame per text part, in order, raising
nothing; and the two-frame Hello/world scenario produces exactly
`{token:"Hello"}`, `{token:" world"}`, `{done:true}` in that order. -/
theorem C4_token_per_text_part (rest : List Char) (ev : Json)
    (hparse : jsonLoads rest = some ev) (hWF : eventWFtok ev = true) :
    lineFrames ("data: ".data ++ rest)
      = ((specEventToks ev).map (fun s => Frame.token (Json.str s)), none) ∧
    stream_agent_response "hi"
      ⟨.ok (200, Json.obj [("id", Json.str "s")]),
       .ok (200,
         ["data: \x7b\"content\": \x7b\"parts\": [\x7b\"text\": \"Hello\"\x7d]\x7d\x7d\n\n",
          "data: \x7b\"content\": \x7b\"parts\": [\x7b\"text\": \" world\"\x7d]\x7d\x7d\n\n"]),
       none⟩
      = [Frame.token (Json.str "Hello"), Frame.token (Json.str " world"), Frame.done] := by
  constructor
  · have hpref : ("data: ".data.isPrefixOf ("data: ".data ++ rest)) = true := by
      rw [List.isPrefixOf_iff_prefix]
      exact List.prefix_append _ _
    have hdrop : ("data: ".data ++ rest).drop 6 = rest := by
      have h6 : ("data: ".data).length = 6 := rfl
      rw [← h6, List.drop_left]
    simp [lineFrames, hpref, hdrop, hparse, processEvent_spec hWF]
  · rfl

theorem C4_witness :
    lineFrames ("data: ".data
        ++ "\x7b\"content\": \x7b\"parts\": [\x7b\"text\": \"Hi\"\x7d]\x7d\x7d".data)
      = ((specEventToks (Json.obj [("content", Json.obj [("parts",
          Json.arr [Json.obj [("text", Json.str "Hi")]])])])).map
            (fun s => Frame.token (Json.str s)), none) ∧
    stream_agent_response "hi"
      ⟨.ok (200, Json.obj [("id", Json.str "s")]),
       .ok (200,
         ["data: \x7b\"content\": \x7b\"parts\": [\x7b\"text\": \"Hello\"\x7d]\x7d\x7d\n\n",
          "data: \x7b\"content\": \x7b\"parts\": [\x7b\"text\": \" world\"\x7d]\x7d\x7d\n\n"]),
       none⟩
      = [Frame.token (Json.str "Hello"), Frame.token (Json.str " world"), Frame.done] :=
  C4_token_per_text_part
    "\x7b\"content\": \x7b\"parts\": [\x7b\"text\": \"Hi\"\x7d]\x7d\x7d".data
    (Json.obj [("content", Json.obj [("parts",
      Json.arr [Json.obj [("text", Json.str "Hi")]])])])
    rfl rfl

/-! ### Claim theorems: request validation -/

/-- A request body whose `message` field is missing (or that is not a JSON
object): pydantic validation fails on it before the handler body runs. -/
def missingMessage : Json → Prop
  | .obj fs => jLookup fs "message" = none
  | _ => True

/-- C2 counterexample: a request whose message is the empty string is not
rejected — the handler runs, issues a session-creation call (one session
call is counted) and, with a healthy backend, answers 200, not a 4xx. -/
theorem C2_counterexample :
    (proxy_agent_request (Json.obj [("message", Json.str "")])
        ⟨.ok (200, Json.obj [("id", Json.str "s")]), .ok (200, []), none⟩
        ⟨.ok (200, Json.obj [("id", Json.str "s")]), .ok (200, Json.arr [])⟩).2.sessions
      = 1 ∧
    handlerStatus (proxy_agent_request (Json.obj [("message", Json.str "")])
        ⟨.ok (200, Json.obj [("id", Json.str "s")]), .ok (200, []), none⟩
        ⟨.ok (200, Json.obj [("id", Json.str "s")]), .ok (200, Json.arr [])⟩).1
      = 200 :=
  ⟨rfl, rfl⟩

/-- C2 (amended): a request whose `message` field is missing is rejected by
request-body validation with the 422 client error before any backend
contact — no session call and no run call are issued.  (An empty-string
message, by contrast, passes validation and is forwarded: see the
counterexample.) -/
theorem C2_missing_message_rejected (body : Json) (sEnv : StreamEnv) (nEnv : RunEnv)
    (h : missingMessage body) :
    proxy_agent_request body sEnv nEnv = (.validationError, ⟨0, 0⟩) ∧
    handlerStatus (proxy_agent_request body sEnv nEnv).1 = 422 := by
  have hp : parseChatMessage body = none := by
    cases body with
    | obj fs =>
      simp only [missingMessage] at h
      simp [parseChatMessage, h]
    | null => rfl
    | bool b => rfl
    | num n => rfl
    | str s => rfl
    | arr xs => rfl
  constructor
  · simp [proxy_agent_request, hp]
  · simp [proxy_agent_request, hp, handlerStatus]

theorem C2_witness :
    proxy_agent_request (Json.obj [("streaming", Json.bool true)])
        ⟨.ok (200, Json.obj []), .ok (200, []), none⟩
        ⟨.ok (200, Json.obj []), .ok (200, Json.arr [])⟩
      = (.validationError, ⟨0, 0⟩) ∧
    handlerStatus (proxy_agent_request (Json.obj [("streaming", Json.bool true)])
        ⟨.ok (200, Json.obj []), .ok (200, []), none⟩
        ⟨.ok (200, Json.obj []), .ok (200, Json.arr [])⟩).1 = 422 :=
  C2_missing_message_rejected (Json.obj [("streaming", Json.bool true)])
    ⟨.ok (200, Json.obj []), .ok (200, []), none⟩
    ⟨.ok (200, Json.obj []), .ok (200, Json.arr [])⟩ rfl

/-! ### Lemmas for reformatter idempotence -/

theorem dropWhile_head_false (p : Char → Bool) :
    ∀ (l : List Char) (c : Char) (t : List Char), l.dropWhile p = c :: t → p c = false
  | [], c, t, h => by simp at h
  | a :: l', c, t, h => by
    by_cases ha : p a
    · rw [List.dropWhile_cons_of_pos ha] at h
      exact dropWhile_head_false p l' c t h
    · rw [List.dropWhile_cons_of_neg ha] at h
      injection h with h1 h2
      subst h1
      exact Bool.eq_false_iff.mpr ha

theorem dropWhile_eq_self_of_head (p : Char → Bool) (l : List Char)
    (h : ∀ c t, l = c :: t → p c = false) : l.dropWhile p = l := by
  cases l with
  | nil => rfl
  | cons c t => exact List.dropWhile_cons_of_neg (by simp [h c t rfl])

theorem dropEndWhile_isPrefix (p : Char → Bool) (l : List Char) :
    dropEndWhile p l <+: l := by
  rw [← List.reverse_suffix]
  have hrev : (dropEndWhile p l).reverse = l.reverse.dropWhile p := by
    simp [dropEndWhile]
  rw [hrev]
  exact List.dropWhile_suffix p

theorem pyStrip_mem {c : Char} {l : List Char} (h : c ∈ pyStrip l) : c ∈ l := by
  unfold pyStrip dropEndWhile at h
  rw [List.mem_reverse] at h
  have h2 := (List.dropWhile_suffix (p := isPySpace)).sublist.subset h
  rw [List.mem_reverse] at h2
  exact (List.dropWhile_suffix isPySpace).sublist.subset h2

theorem dropEndWhile_idem (p : Char → Bool) (m : List Char) :
    dropEndWhile p (dropEndWhile p m) = dropEndWhile p m := by
  show ((dropEndWhile p m).reverse.dropWhile p).reverse = dropEndWhile p m
  have hrev : (dropEndWhile p m).reverse = m.reverse.dropWhile p := by
    simp [dropEndWhile]
  rw [hrev, dropWhile_eq_self_of_head p _ (fun c t h => dropWhile_head_false p m.reverse c t h)]
  simp [dropEndWhile]

theorem pyStrip_idem (l : List Char) : pyStrip (pyStrip l) = pyStrip l := by
  unfold pyStrip
  have hq : (dropEndWhile isPySpace (l.dropWhile isPySpace)).dropWhile isPySpace
      = dropEndWhile isPySpace (l.dropWhile isPySpace) := by
    apply dropWhile_eq_self_of_head
    intro c t h
    obtain ⟨r, hr⟩ := dropEndWhile_isPrefix isPySpace (l.dropWhile isPySpace)
    rw [h] at hr
    exact dropWhile_head_false isPySpace l c (t ++ r) (by rw [← hr]; simp)
  rw [hq, dropEndWhile_idem]

/-- The three rewrite conditions of the line loop, all absent: the stripped
line starts with none of the bullet markers and not with a hash. -/
def markerFree (l : List Char) : Bool :=
  !("- ".data.isPrefixOf (pyStrip l)) && !("• ".data.isPrefixOf (pyStrip l))
    && !(['#'].isPrefixOf (pyStrip l))

theorem formatLine_eq_strip (l : List Char) (h : markerFree l = true) :
    formatLine l = pyStrip l := by
  simp only [markerFree, Bool.and_eq_true, Bool.not_eq_true'] at h
  obtain ⟨⟨h1, h2⟩, h3⟩ := h
  simp [formatLine, h1, h2, h3]

theorem pySplitNl_ne_nil (l : List Char) : pySplitNl l ≠ [] := by
  cases l with
  | nil => simp [pySplitNl]
  | cons c rest =>
    rw [pySplitNl]
    cases h : pySplitNl rest with
    | nil => simp
    | cons a as => by_cases hc : c = '\n' <;> simp [hc]

/-- Unfolding equation for `pySplitNl` on a cons, with the recursive result
given. -/
theorem pySplitNl_cons (c : Char) (rest a : List Char) (as : List (List Char))
    (h : pySplitNl rest = a :: as) :
    pySplitNl (c :: rest) = if c = '\n' then [] :: a :: as else (c :: a) :: as := by
  rw [pySplitNl, h]

theorem pySplitNl_no_nl : ∀ (l piece : List Char), piece ∈ pySplitNl l → '\n' ∉ piece
  | [], piece, hp => by
    simp [pySplitNl] at hp
    subst hp
    simp
  | c :: rest, piece, hp => by
    cases h : pySplitNl rest with
    | nil => exact absurd h (pySplitNl_ne_nil rest)
    | cons a as =>
      rw [pySplitNl_cons c rest a as h] at hp
      by_cases hc : c = '\n'
      · rw [if_pos hc] at hp
        rcases List.mem_cons.mp hp with h1 | h1
        · subst h1
          simp
        · exact pySplitNl_no_nl rest piece (by rw [h]; exact h1)
      · rw [if_neg hc] at hp
        rcases List.mem_cons.mp hp with h1 | h1
        · subst h1
          intro hmem
          rcases List.mem_cons.mp hmem with h2 | h2
          · exact hc h2.symm
          · exact pySplitNl_no_nl rest a (by rw [h]; exact List.mem_cons_self a as) h2
        · exact pySplitNl_no_nl rest piece (by rw [h]; exact List.mem_cons_of_mem a h1)

theorem pySplitNl_single (l : List Char) (h : '\n' ∉ l) : pySplitNl l = [l] := by
  induction l with
  | nil => rfl
  | cons c l' ih =>
    have hc : c ≠ '\n' := fun he => h (by rw [he]; exact List.mem_cons_self _ _)
    have h' : '\n' ∉ l' := fun hm => h (List.mem_cons_of_mem c hm)
    rw [pySplitNl, ih h']
    simp [hc]

theorem pySplitNl_append_nl (t : List Char) :
    ∀ (l : List Char), '\n' ∉ l → pySplitNl (l ++ '\n' :: t) = l :: pySplitNl t
  | [], _ => by
    show pySplitNl ('\n' :: t) = [] :: pySplitNl t
    rw [pySplitNl]
    cases h : pySplitNl t with
    | nil => exact absurd h (pySplitNl_ne_nil t)
    | cons a as => simp
  | c :: l', h => by
    have hc : c ≠ '\n' := fun he => h (by rw [he]; exact List.mem_cons_self _ _)
    have h' : '\n' ∉ l' := fun hm => h (List.mem_cons_of_mem c hm)
    show pySplitNl (c :: (l' ++ '\n' :: t)) = (c :: l') :: pySplitNl t
    rw [pySplitNl, pySplitNl_append_nl t l' h']
    simp [hc]

theorem pySplitNl_joinNl : ∀ (pieces : List (List Char)),
    (∀ p ∈ pieces, '\n' ∉ p) → pieces ≠ [] → pySplitNl (pyJoinNl pieces) = pieces
  | [], _, hne => absurd rfl hne
  | [l], h, _ => by
    show pySplitNl l = [l]
    exact pySplitNl_single l (h l (List.mem_cons_self _ _))
  | l :: l2 :: ls, h, _ => by
    show pySplitNl (l ++ '\n' :: pyJoinNl (l2 :: ls)) = l :: l2 :: ls
    rw [pySplitNl_append_nl _ l (h l (List.mem_cons_self _ _)),
      pySplitNl_joinNl (l2 :: ls) (fun p hp => h p (List.mem_cons_of_mem _ hp)) (by simp)]

theorem pyJoinNl_splitNl : ∀ (l : List Char), pyJoinNl (pySplitNl l) = l
  | [] => rfl
  | c :: rest => by
    cases h : pySplitNl rest with
    | nil => exact absurd h (pySplitNl_ne_nil rest)
    | cons a as =>
      rw [pySplitNl_cons c rest a as h]
      have ih : pyJoinNl (a :: as) = rest := by
        rw [← h]
        exact pyJoinNl_splitNl rest
      by_cases hc : c = '\n'
      · subst hc
        rw [if_pos rfl]
        show '\n' :: pyJoinNl (a :: as) = '\n' :: rest
        rw [ih]
      · rw [if_neg hc]
        cases as with
        | nil =>
          show c :: a = c :: rest
          rw [show a = rest from by simpa [pyJoinNl] using ih]
        | cons b as' =>
          show (c :: a) ++ '\n' :: pyJoinNl (b :: as') = c :: rest
          have : a ++ '\n' :: pyJoinNl (b :: as') = rest := ih
          simp [← this]

theorem mem_pyJoinNl_decomp : ∀ (pieces : List (List Char)) (piece : List Char),
    piece ∈ pieces → ∃ pre post, pyJoinNl pieces = pre ++ piece ++ post
  | [], piece, hp => absurd hp (List.not_mem_nil piece)
  | l :: ls, piece, hp => by
    rcases List.mem_cons.mp hp with h1 | h1
    · subst h1
      cases ls with
      | nil => exact ⟨[], [], by simp [pyJoinNl]⟩
      | cons l2 ls' =>
        refine ⟨[], '\n' :: pyJoinNl (l2 :: ls'), ?_⟩
        show pyJoinNl (piece :: l2 :: ls') = piece ++ '\n' :: pyJoinNl (l2 :: ls')
        rfl
    · have hls : ls ≠ [] := fun he => by
        rw [he] at h1
        exact List.not_mem_nil piece h1
      obtain ⟨pre, post, hdec⟩ := mem_pyJoinNl_decomp ls piece h1
      cases ls with
      | nil => exact absurd rfl hls
      | cons l2 ls' =>
        refine ⟨l ++ '\n' :: pre, post, ?_⟩
        show l ++ '\n' :: pyJoinNl (l2 :: ls') = (l ++ '\n' :: pre) ++ piece ++ post
        rw [hdec]
        simp

theorem hasSS_mem_pySplitNl {l piece : List Char} (h1 : hasSS l = false)
    (hp : piece ∈ pySplitNl l) : hasSS piece = false := by
  obtain ⟨pre, post, hdec⟩ := mem_pyJoinNl_decomp (pySplitNl l) piece hp
  rw [pyJoinNl_splitNl l] at hdec
  subst hdec
  have h2 := hasSS_append_right_false pre (piece ++ post) (by simpa using h1)
  exact hasSS_append_left_false piece post h2

theorem hasSS_dropWhile_false (p : Char → Bool) (l : List Char) (h : hasSS l = false) :
    hasSS (l.dropWhile p) = false := by
  obtain ⟨t, ht⟩ := List.dropWhile_suffix (l := l) p
  exact hasSS_append_right_false t _ (ht.symm ▸ h)

theorem hasSS_pyStrip_false (l : List Char) (h : hasSS l = false) :
    hasSS (pyStrip l) = false := by
  obtain ⟨t, ht⟩ := dropEndWhile_isPrefix isPySpace (l.dropWhile isPySpace)
  exact hasSS_append_left_false _ t
    (ht.symm ▸ hasSS_dropWhile_false isPySpace l h)

theorem hasSS_pyJoinNl_false : ∀ (pieces : List (List Char)),
    (∀ p ∈ pieces, hasSS p = false) → hasSS (pyJoinNl pieces) = false
  | [], _ => rfl
  | [l], h => h l (List.mem_cons_self _ _)
  | l :: l2 :: ls, h => by
    show hasSS (l ++ '\n' :: pyJoinNl (l2 :: ls)) = false
    rw [hasSS_append_cons l '\n' (pyJoinNl (l2 :: ls)),
      hasSS_append_nonstar (by decide) l, h l (List.mem_cons_self _ _),
      hasSS_cons_nonstar (by decide),
      hasSS_pyJoinNl_false (l2 :: ls) (fun p hp => h p (List.mem_cons_of_mem _ hp))]
    rfl

/-! ### Claim theorem: reformatter idempotence -/

/-- C8: on plain text with no markdown markers — no `**` occurrence and no
line whose stripped form starts with a bullet marker or a hash — the
reformatter applied to its own output returns that output unchanged. -/
theorem C8_format_text_idempotent (s : String) (h1 : hasSS s.data = false)
    (h2 : ∀ l ∈ pySplitNl s.data, markerFree l = true) :
    format_text (format_text s) = format_text s := by
  have hpat : "**".data = ['*', '*'] := rfl
  have hbold : boldPhase s.data = s.data := by
    unfold boldPhase
    rw [hpat, rfAux_no_match _ s.data h1, rfAux_no_match _ s.data h1]
  have hlines : (pySplitNl s.data).map formatLine = (pySplitNl s.data).map pyStrip :=
    List.map_congr_left (fun l hl => formatLine_eq_strip l (h2 l hl))
  have hf1 : (format_text s).data = pyJoinNl ((pySplitNl s.data).map pyStrip) := by
    show formatChars s.data = _
    unfold formatChars
    rw [hbold, hlines]
  have hpieceNl : ∀ p ∈ (pySplitNl s.data).map pyStrip, '\n' ∉ p := by
    intro p hp hmem
    obtain ⟨l, hl, rfl⟩ := List.mem_map.mp hp
    exact pySplitNl_no_nl s.data l hl (pyStrip_mem hmem)
  have hpieceSS : ∀ p ∈ (pySplitNl s.data).map pyStrip, hasSS p = false := by
    intro p hp
    obtain ⟨l, hl, rfl⟩ := List.mem_map.mp hp
    exact hasSS_pyStrip_false l (hasSS_mem_pySplitNl h1 hl)
  have hpieceStrip : ∀ p ∈ (pySplitNl s.data).map pyStrip, pyStrip p = p := by
    intro p hp
    obtain ⟨l, hl, rfl⟩ := List.mem_map.mp hp
    exact pyStrip_idem l
  have hpieceMarker : ∀ p ∈ (pySplitNl s.data).map pyStrip, markerFree p = true := by
    intro p hp
    obtain ⟨l, hl, rfl⟩ := List.mem_map.mp hp
    have := h2 l hl
    simpa [markerFree, pyStrip_idem] using this
  have hSS2 : hasSS (format_text s).data = false := by
    rw [hf1]
    exact hasSS_pyJoinNl_false _ hpieceSS
  have hsplit2 : pySplitNl (format_text s).data = (pySplitNl s.data).map pyStrip := by
    rw [hf1]
    exact pySplitNl_joinNl _ hpieceNl
      (fun he => pySplitNl_ne_nil s.data (List.map_eq_nil_iff.mp he))
  have hkey : formatChars (format_text s).data = (format_text s).data := by
    unfold formatChars
    have hbold2 : boldPhase (format_text s).data = (format_text s).data := by
      unfold boldPhase
      rw [hpat, rfAux_no_match _ _ hSS2, rfAux_no_match _ _ hSS2]
    rw [hbold2, hsplit2]
    rw [List.map_congr_left (fun p hp => formatLine_eq_strip p (hpieceMarker p hp))]
    rw [List.map_congr_left hpieceStrip, List.map_id']
    exact hf1.symm
  calc format_text (format_text s)
      = ⟨formatChars (format_text s).data⟩ := rfl
    _ = ⟨(format_text s).data⟩ := by rw [hkey]
    _ = format_text s := rfl

theorem C8_witness :
    hasSS "Results are in.\nAll numbers look stable.".data = false ∧
    (∀ l ∈ pySplitNl "Results are in.\nAll numbers look stable.".data,
      markerFree l = true) ∧
    format_text (format_text "Results are in.\nAll numbers look stable.")
      = format_text "Results are in.\nAll numbers look stable." :=
  ⟨by decide, by decide,
    C8_format_text_idempotent "Results are in.\nAll numbers look stable."
      (by decide) (by decide)⟩

theorem C1_witness :
    (stream_agent_response "hi"
        ⟨.ok (200, Json.obj [("id", Json.str "s")]), .ok (200, []), none⟩).getLast?
      = some Frame.done ∨
    (∃ st sbody,
      (⟨.ok (200, Json.obj [("id", Json.str "s")]), .ok (200, []), none⟩
          : StreamEnv).sessionCall = .ok (st, sbody) ∧ st ≠ 200 ∧
      stream_agent_response "hi"
          ⟨.ok (200, Json.obj [("id", Json.str "s")]), .ok (200, []), none⟩
        = [Frame.error "Failed to create session"]) :=
  C1_done_terminator "hi" ⟨.ok (200, Json.obj [("id", Json.str "s")]), .ok (200, []), none⟩
